import Mathlib

/-!
Shallow embedding of the session runtime of the azureai-assistant-tool SDK
(`async_chat_assistant_client.py`, `assistant_config.py`,
`async_conversation_thread_client.py`) together with proofs about the
spec's claims for it.

Conventions of the embedding:
* Python dict-based chat messages become the structure `Msg`; keys that may be
  absent become `Option` fields.
* The tokenizer (`tiktoken`) is a parameter `enc : String → Nat` standing for
  `len(enc.encode s)`.
* `token_count` is carried as `Int` (Python integers may go negative after
  the decrements performed by eviction).
* The eviction `while` loop of `_update_token_count` is embedded with explicit
  fuel; returning `outOfFuel` for every fuel value models non-termination.
* Exceptions (`KeyError` from a dict lookup, `IndexError` from `messages[0]`)
  become explicit error results.
* The asynchronous callbacks become an accumulated list of `Event` values, and
  writes to the remote conversation thread become `SinkAppend` records.
* Functions of `BaseChatAssistantClient` and `AsyncConversation`, which are
  part of this repository but not among the provided source files, are
  modelled from the spec; their doc comments say so explicitly.
-/

/-- Chat roles occurring in the client: the code only ever stores and compares
the strings "system", "user", "assistant" and "tool". -/
inductive Role where
  | system
  | user
  | assistant
  | tool
deriving DecidableEq, Repr

/-- The `function` payload of a tool call: `{name, arguments}`. -/
structure ToolCallFunction where
  name : String
  arguments : String
deriving DecidableEq, Repr

/-- A resolved tool-call descriptor `{id, function: {name, arguments}}` as it
appears on atomic responses and after stream assembly. -/
structure ToolCall where
  id : String
  function : ToolCallFunction
deriving DecidableEq, Repr

/-- One entry of `self._messages`.  The Python code stores heterogeneous
dicts / response objects; keys that a given entry lacks are `none`. -/
structure Msg where
  role : Role
  content : Option String := none
  tool_call_id : Option String := none
  name : Option String := none
  tool_calls : Option (List ToolCall) := none
deriving DecidableEq, Repr

/-- Python truthiness of an optional string (`None` and `""` are falsy). -/
def optTruthy : Option String → Bool
  | none => false
  | some s => s ≠ ""

/-- The `ModelMaxTokens.model_token_limits` dict of `assistant_config.py`. -/
def model_token_limits : List (String × Nat) :=
  [("gpt-4o", 128000), ("gpt-3", 2048), ("gpt-4", 8192)]

/-- The `model_conv_token_limit` property of `AssistantConfig`:
`ModelMaxTokens().model_token_limits[self._model]`.  A missing key is the
Python `KeyError`, embedded as `none`. -/
def model_conv_token_limit (model : String) : Option Nat :=
  model_token_limits.lookup model

/-- Result of running the eviction loop of `_update_token_count` with fuel. -/
inductive BudgetResult where
  | ok (msgs : List Msg) (count : Int)
  | indexError
  | keyError
  | outOfFuel
deriving DecidableEq, Repr

/-- The `while` loop of `_update_token_count`: while `token_count` exceeds the
limit, inspect `messages[0]`; a `user`/`assistant` head is removed and its
tokenized content length subtracted; any other head leaves the state
unchanged and the loop repeats.  Fuel models the number of iterations the
loop is allowed; `outOfFuel` for every fuel value means the loop diverges. -/
def update_token_count_loop (enc : String → Nat) (limit : Int) :
    Nat → List Msg → Int → BudgetResult
  | 0, msgs, count => if count > limit then .outOfFuel else .ok msgs count
  | fuel + 1, msgs, count =>
    if count > limit then
      match msgs with
      | [] => .indexError
      | m :: rest =>
        if m.role = .user ∨ m.role = .assistant then
          match m.content with
          | some c => update_token_count_loop enc limit fuel rest (count - enc c)
          | none => .keyError
        else
          update_token_count_loop enc limit fuel (m :: rest) count
    else .ok msgs count

/-- `_update_token_count`: reads `model_conv_token_limit` (a `KeyError` for an
unknown model) and runs the eviction loop against it. -/
def update_token_count (enc : String → Nat) (model : String) (fuel : Nat)
    (msgs : List Msg) (count : Int) : BudgetResult :=
  match model_conv_token_limit model with
  | none => .keyError
  | some L => update_token_count_loop enc (L : Int) fuel msgs count

/-- A system message holding instructions, as the eviction loop meets it. -/
def sysMsg (s : String) : Msg := { role := .system, content := some s }

/-- A user message as appended by `process_messages`. -/
def userMsg (s : String) : Msg := { role := .user, content := some s }

theorem update_token_count_loop_stuck (fuel : Nat) :
    update_token_count_loop (fun s => s.length) 2048 fuel [sysMsg "instructions"] 2049 =
      .outOfFuel := by
  induction fuel with
  | zero => simp [update_token_count_loop]
  | succ n ih =>
      simp only [update_token_count_loop, sysMsg]
      norm_num
      exact ih

/-- C1: for every message history and token limit, after `_update_token_count`
returns, either the token count is at or below the model limit or no
user/assistant turn remains — and in particular the eviction loop terminates
even when the oldest turn is a `system` or `tool` turn while the count still
exceeds the limit.  The code violates this: with model "gpt-3" (limit 2048),
history `[{role: system}]` and token count 2049, the loop body never changes
the state and the loop never returns (it runs out of every amount of fuel). -/
theorem update_token_count_diverges_on_system_head (fuel : Nat) :
    update_token_count (fun s => s.length) "gpt-3" fuel [sysMsg "instructions"] 2049 =
      .outOfFuel := by
  have h : model_conv_token_limit "gpt-3" = some 2048 := by decide
  simp only [update_token_count, h]
  exact update_token_count_loop_stuck fuel

/-- C10: `model_conv_token_limit` is defined for exactly the models
"gpt-4o" (128000), "gpt-3" (2048) and "gpt-4" (8192); for every other model
string the dict lookup fails, so the budget-enforcement step
`_update_token_count` raises a lookup error for every such model. -/
theorem model_conv_token_limit_partial :
    (∀ m, (model_conv_token_limit m).isSome ↔
      (m = "gpt-4o" ∨ m = "gpt-3" ∨ m = "gpt-4")) ∧
    model_conv_token_limit "gpt-4o" = some 128000 ∧
    model_conv_token_limit "gpt-3" = some 2048 ∧
    model_conv_token_limit "gpt-4" = some 8192 ∧
    (∀ m, model_conv_token_limit m = none →
      ∀ enc fuel msgs count, update_token_count enc m fuel msgs count = .keyError) := by
  refine ⟨?_, by decide, by decide, by decide, ?_⟩
  · intro m
    simp only [model_conv_token_limit, model_token_limits, List.lookup]
    by_cases h1 : m = "gpt-4o"
    · simp [h1]
    · by_cases h2 : m = "gpt-3"
      · simp [h1, h2]
      · by_cases h3 : m = "gpt-4"
        · simp [h1, h2, h3]
        · simp [h1, h2, h3, beq_false_of_ne]
  · intro m hm enc fuel msgs count
    simp [update_token_count, hm]

theorem model_conv_token_limit_partial_witness :
    update_token_count (fun s => s.length) "gpt-5" 3 [userMsg "hi"] 10 = .keyError := by
  have h : model_conv_token_limit "gpt-5" = none := by decide
  exact model_conv_token_limit_partial.2.2.2.2 "gpt-5" h (fun s => s.length) 3 [userMsg "hi"] 10

/-- Observable callback invocations, in the order they fire. -/
inductive Event where
  | runStart (userRequest : Option String)
  | streamUpdate (fragment : String) (isFirst : Bool)
  | functionCallProcessed (name : String) (arguments : String) (result : String)
  | runUpdateCompleted
  | runEnd (finalText : Option String)
deriving DecidableEq, Repr

/-- One write to the remote conversation thread
(`create_conversation_thread_message`). -/
structure SinkAppend where
  message : String
  threadName : String
deriving DecidableEq, Repr

/-- The `response.choices[0].message` of a non-streaming completion. -/
structure RespMsg where
  content : Option String
  tool_calls : Option (List ToolCall)
deriving DecidableEq, Repr

/-- Outcome of one `chat.completions.create` call, together with whether a
cooperative cancellation request arrived while the call was awaited (the only
suspension point inside the loop at which the flag can become set). -/
inductive ReqOutcome where
  | ok (rm : RespMsg) (cancelArrived : Bool)
  | noResponse (cancelArrived : Bool)
  | err (e : String)
deriving DecidableEq, Repr

/-- Result of one `_handle_non_streaming_response` call: the updated message
list, the events fired, the thread writes performed, and the returned value
(`some true`, `some false`, or `none` for Python's implicit `None`). -/
structure IterResult where
  msgs : List Msg
  events : List Event
  sinks : List SinkAppend
  cont : Option Bool
deriving DecidableEq, Repr

/-- `_handle_non_streaming_response`: append `response.choices[0].message` to
the history; if its content is truthy, optionally persist it to the thread and
return `False`; otherwise, if `tool_calls` is not `None`, dispatch each call in
order (callback, then tool turn) and return `True`; otherwise fall through and
return `None`. -/
def handle_non_streaming_response (h : String → String → String)
    (tn : Option String) (rm : RespMsg) (msgs : List Msg) : IterResult :=
  let msgs1 := msgs ++ [{ role := .assistant, content := rm.content,
                          tool_calls := rm.tool_calls }]
  if optTruthy rm.content then
    { msgs := msgs1, events := [],
      sinks := match tn with
        | some t => [{ message := rm.content.getD "", threadName := t }]
        | none => [],
      cont := some false }
  else
    match rm.tool_calls with
    | some calls =>
        let step := calls.foldl (fun (acc : List Msg × List Event) tc =>
          let resp := h tc.function.name tc.function.arguments
          (acc.1 ++ [{ role := .tool, content := some resp,
                       tool_call_id := some tc.id,
                       name := some tc.function.name }],
           acc.2 ++ [Event.functionCallProcessed tc.function.name
                       tc.function.arguments resp]))
          (msgs1, ([] : List Event))
        { msgs := step.1, events := step.2, sinks := [], cont := some true }
    | none => { msgs := msgs1, events := [], sinks := [], cont := none }

/-- Result of the `while continue_processing` loop of `process_messages`. -/
inductive LoopResult where
  | done (msgs : List Msg) (events : List Event) (sinks : List SinkAppend)
      (last : Option RespMsg) (flagAfter : Bool) (cancelled : Bool)
  | engineError (e : String) (msgs : List Msg) (events : List Event)
      (sinks : List SinkAppend)
  | outOfResponses (msgs : List Msg) (events : List Event)
      (sinks : List SinkAppend)
deriving DecidableEq, Repr

/-- Python truthiness of the loop variable `continue_processing`
(`Option Bool`, where only `some true` keeps the loop going). -/
def contTruthy : Option Bool → Bool
  | some true => true
  | _ => false

/-- The non-streaming request/dispatch loop of `process_messages`
(lines 231-270): at each iteration boundary check the cancellation flag — if
set, clear it and break — otherwise issue the next request; a raised transport
error propagates out with the history as it was before the failed request. -/
def runLoop (h : String → String → String) (tn : Option String) :
    Bool → List ReqOutcome → List Msg → List Event → List SinkAppend →
    Option RespMsg → LoopResult
  | flag, outcomes, msgs, events, sinks, last =>
    if flag then .done msgs events sinks last false true
    else
      match outcomes with
      | [] => .outOfResponses msgs events sinks
      | .err e :: _ => .engineError e msgs events sinks
      | .noResponse c :: _ => .done msgs events sinks none c false
      | .ok rm c :: rest =>
          let r := handle_non_streaming_response h tn rm msgs
          if contTruthy r.cont then
            runLoop h tn c rest r.msgs (events ++ r.events) (sinks ++ r.sinks)
              (some rm)
          else
            .done r.msgs (events ++ r.events) (sinks ++ r.sinks) (some rm) c false

/-- A message of a retrieved conversation, as the thread branch of
`process_messages` consumes it (role plus `text_message.content`); the sink
returns them newest first. -/
structure RetrievedMsg where
  role : Role
  text : String
deriving DecidableEq, Repr

/-- The thread branch of `process_messages` (lines 207-211): walk the
retrieved conversation oldest first and append its user and assistant turns
to the history; no token accounting is performed here. -/
def appendThreadMessages (retrieved : List RetrievedMsg) (msgs : List Msg) :
    List Msg :=
  retrieved.reverse.foldl (fun acc m =>
    match m.role with
    | .user => acc ++ [userMsg m.text]
    | .assistant => acc ++ [{ role := .assistant, content := some m.text }]
    | _ => acc) msgs

/-- Modelled from the spec: `_reset_system_messages` lives in
`BaseChatAssistantClient`, which is not among the provided source files.  Per
the spec the assistant's instructions are the system content of the history
and configuration handling is an external concern; the reset is modelled as
replacing all system-role turns by the configured instructions (one leading
system turn when instructions are non-empty). -/
def reset_system_messages (instructions : Option String) (msgs : List Msg) :
    List Msg :=
  let rest := msgs.filter (fun m => m.role ≠ .system)
  if optTruthy instructions then sysMsg (instructions.getD "") :: rest else rest

/-- Modelled from the spec: `AsyncConversation.get_last_text_message("user")`
is not among the provided source files; per the spec the run-start
notification carries the initial request, the most recent user text of the
retrieved conversation (which arrives newest first). -/
def getLastUserText (retrieved : List RetrievedMsg) : Option String :=
  (retrieved.find? (fun m => m.role = .user)).map (fun m => m.text)

/-- Result of a whole `process_messages` call. -/
inductive ProcResult where
  | ok (ret : Option String) (msgs : List Msg) (events : List Event)
      (sinks : List SinkAppend) (tokenCount : Int)
  | engineError (e : String) (msgs : List Msg) (events : List Event)
      (sinks : List SinkAppend)
  | diverged
  | valueError
deriving DecidableEq, Repr

/-- `process_messages` with `stream=False`.  Inputs: the tokenizer, the model
name, the eviction-loop fuel, the tool handler, the optional thread name /
user request / additional instructions, the conversation the sink returns for
the thread, the configured instructions, the outcome of each request the loop
issues, whether the cancellation flag is set when the call starts, and the
initial history and token count.  Steps, in source order: validate arguments;
append the additional instructions as a system turn; append either the
retrieved thread turns (uncounted) or the user request (counted); run the
eviction loop; fire on-run-start; clear a pre-set cancellation flag; run the
request/dispatch loop; reset the system messages; fire the completed update;
and, when no thread is given, read the final response content, fire
on-run-end with it and return it. -/
def process_messages (enc : String → Nat) (model : String) (fuel : Nat)
    (h : String → String → String)
    (threadName userRequest additionalInstructions : Option String)
    (retrieved : List RetrievedMsg) (instructions : Option String)
    (outcomes : List ReqOutcome) (cancel0 : Bool)
    (msgs0 : List Msg) (count0 : Int) : ProcResult :=
  if threadName = none ∧ userRequest = none then .valueError
  else
    let msgs1 := if optTruthy additionalInstructions then
        msgs0 ++ [sysMsg (additionalInstructions.getD "")] else msgs0
    let st2 : List Msg × Int :=
      if optTruthy threadName then (appendThreadMessages retrieved msgs1, count0)
      else if optTruthy userRequest then
        (msgs1 ++ [userMsg (userRequest.getD "")],
         count0 + (enc (userRequest.getD "") : Int))
      else (msgs1, count0)
    match update_token_count enc model fuel st2.1 st2.2 with
    | .outOfFuel => .diverged
    | .indexError => .engineError "IndexError" st2.1 [] []
    | .keyError => .engineError "KeyError" st2.1 [] []
    | .ok msgs2 count2 =>
      let startReq := if optTruthy threadName then getLastUserText retrieved
                      else userRequest
      let events0 := [Event.runStart startReq]
      let flag1 := if cancel0 then false else cancel0
      match runLoop h threadName flag1 outcomes msgs2 events0 [] none with
      | .outOfResponses msgs events sinks => .engineError "NoMoreResponses" msgs events sinks
      | .engineError e msgs events sinks => .engineError e msgs events sinks
      | .done msgs events sinks last _ _ =>
        let msgs3 := reset_system_messages instructions msgs
        let events1 := events ++ [Event.runUpdateCompleted]
        if optTruthy threadName then
          .ok none msgs3 (events1 ++ [Event.runEnd none]) sinks count2
        else
          match last with
          | none => .engineError "AttributeError" msgs3 events1 sinks
          | some rm =>
              .ok rm.content msgs3 (events1 ++ [Event.runEnd rm.content]) sinks count2

theorem update_token_count_loop_noop (enc : String → Nat) (limit : Int)
    (fuel : Nat) (msgs : List Msg) (count : Int) (h : ¬ count > limit) :
    update_token_count_loop enc limit fuel msgs count = .ok msgs count := by
  cases fuel <;> simp [update_token_count_loop, h]

/-- C2 (counterexample): the cancellation flag is set before the first
iteration of the run starts, yet the run does not end cancelled: the pre-loop
check clears the flag, a request is issued, an assistant turn "hello" is
appended beyond the initiating user turn, and `process_messages` returns
"hello". -/
theorem cancel_set_before_run_is_swallowed :
    process_messages (fun s => s.length) "gpt-4o" 1 (fun _ _ => "") none
      (some "hi") none [] none [.ok ⟨some "hello", none⟩ false] true [] 0 =
    .ok (some "hello")
      [userMsg "hi", { role := .assistant, content := some "hello" }]
      [.runStart (some "hi"), .runUpdateCompleted, .runEnd (some "hello")]
      [] 2 := by
  rfl

/-- C2 (amended): a cancellation flag already set when `process_messages`
starts is cleared by the pre-loop check and the run proceeds exactly as if the
flag had been clear; the in-loop check only acts on a flag set after that
point (that is, while a request is awaited): at the next iteration boundary it
clears the flag exactly once and ends the loop with no turn appended for that
iteration. -/
theorem cancel_cleared_at_preloop_and_boundary :
    (∀ enc model fuel h tn ur ai retrieved instr outcomes msgs0 count0,
      process_messages enc model fuel h tn ur ai retrieved instr outcomes true msgs0 count0 =
      process_messages enc model fuel h tn ur ai retrieved instr outcomes false msgs0 count0) ∧
    (∀ h tn outcomes msgs events sinks last,
      runLoop h tn true outcomes msgs events sinks last =
        .done msgs events sinks last false true) := by
  refine ⟨fun _ _ _ _ _ _ _ _ _ _ _ _ => rfl, fun _ _ _ _ _ _ _ => ?_⟩
  unfold runLoop
  rfl

/-- C5: a transport-level error raised by `chat.completions.create` aborts the
run at once and is surfaced to the caller as an engine error, with the message
history exactly as it was before the failed request: no assistant or tool turn
of that iteration is appended.  Stated for every loop state, and evaluated on
a run whose single request fails with "boom". -/
theorem transport_error_leaves_history_unchanged :
    (∀ h tn e rest msgs events sinks last,
      runLoop h tn false (.err e :: rest) msgs events sinks last =
        .engineError e msgs events sinks) ∧
    process_messages (fun s => s.length) "gpt-4o" 1 (fun _ _ => "") none
        (some "hi") none [] none [.err "boom"] false [] 0 =
      .engineError "boom" [userMsg "hi"] [.runStart (some "hi")] [] := by
  refine ⟨fun _ _ _ _ _ _ _ _ => ?_, ?_⟩
  · unfold runLoop
    rfl
  · rfl

theorem dispatch_foldl (h : String → String → String) (calls : List ToolCall) :
    ∀ (m0 : List Msg) (e0 : List Event),
      calls.foldl (fun (acc : List Msg × List Event) tc =>
        let resp := h tc.function.name tc.function.arguments
        (acc.1 ++ [{ role := .tool, content := some resp,
                     tool_call_id := some tc.id,
                     name := some tc.function.name }],
         acc.2 ++ [Event.functionCallProcessed tc.function.name
                     tc.function.arguments resp])) (m0, e0) =
      (m0 ++ calls.map (fun tc =>
         { role := .tool,
           content := some (h tc.function.name tc.function.arguments),
           tool_call_id := some tc.id, name := some tc.function.name }),
       e0 ++ calls.map (fun tc =>
         Event.functionCallProcessed tc.function.name tc.function.arguments
           (h tc.function.name tc.function.arguments))) := by
  induction calls with
  | nil => simp
  | cons c cs ih =>
      intro m0 e0
      simp only [List.foldl_cons, List.map_cons]
      rw [ih]
      simp

/-- C7: a response carrying tool calls makes the runner append one assistant
turn recording the `tool_calls`, then for each descriptor in order report
name, arguments and stringified result through the function-call callback and
append a tool turn `{tool_call_id, name, content = result}`, and return
`True` so that the loop issues another request before completing; evaluated on
a `get_weather` call whose handler returns "sunny" followed by a second
request answering "done". -/
theorem tool_calls_dispatch_in_order :
    (∀ (h : String → String → String) tn calls msgs,
      handle_non_streaming_response h tn ⟨none, some calls⟩ msgs =
        { msgs := msgs ++
            [{ role := .assistant, content := none, tool_calls := some calls }] ++
            calls.map (fun tc =>
              { role := .tool,
                content := some (h tc.function.name tc.function.arguments),
                tool_call_id := some tc.id, name := some tc.function.name }),
          events := calls.map (fun tc =>
            Event.functionCallProcessed tc.function.name tc.function.arguments
              (h tc.function.name tc.function.arguments)),
          sinks := [], cont := some true }) ∧
    runLoop (fun n _ => if n = "get_weather" then "sunny" else "") none false
      [.ok ⟨none, some [⟨"call1", ⟨"get_weather", "\x7b\"city\": \"Paris\"\x7d"⟩⟩]⟩ false,
       .ok ⟨some "done", none⟩ false]
      [userMsg "hi"] [] [] none =
    .done
      [userMsg "hi",
       { role := .assistant, content := none,
         tool_calls := some [⟨"call1", ⟨"get_weather", "\x7b\"city\": \"Paris\"\x7d"⟩⟩] },
       { role := .tool, content := some "sunny", tool_call_id := some "call1",
         name := some "get_weather" },
       { role := .assistant, content := some "done" }]
      [.functionCallProcessed "get_weather" "\x7b\"city\": \"Paris\"\x7d" "sunny"]
      [] (some ⟨some "done", none⟩) false false := by
  constructor
  · intro h tn calls msgs
    simp only [handle_non_streaming_response, optTruthy]
    rw [dispatch_foldl]
    simp
  · rfl

/-- C8: every run that completes with a truthy final text appends exactly one
new assistant turn carrying that text, fires the on-run-end notification with
the final text, and returns it from `process_messages`; the hypotheses pin the
request path (a truthy user request, a known model, a token count within the
limit, no system turns that the post-run reset would rewrite). -/
theorem process_messages_returns_final_text
    (enc : String → Nat) (model : String) (L fuel : Nat)
    (h : String → String → String) (u t : String)
    (msgs0 : List Msg) (count0 : Int)
    (hL : model_conv_token_limit model = some L)
    (hcount : count0 + (enc u : Int) ≤ (L : Int))
    (hu : u ≠ "") (ht : t ≠ "")
    (hsys : ∀ m ∈ msgs0, m.role ≠ Role.system) :
    process_messages enc model fuel h none (some u) none [] none
        [.ok ⟨some t, none⟩ false] false msgs0 count0 =
      .ok (some t)
        (msgs0 ++ [userMsg u, { role := .assistant, content := some t }])
        [.runStart (some u), .runUpdateCompleted, .runEnd (some t)]
        [] (count0 + (enc u : Int)) := by
  have hut : optTruthy (some u) = true := by simp [optTruthy, hu]
  have htt : optTruthy (some t) = true := by simp [optTruthy, ht]
  have hnoop : update_token_count enc model fuel (msgs0 ++ [userMsg u])
      (count0 + (enc u : Int)) = .ok (msgs0 ++ [userMsg u]) (count0 + (enc u : Int)) := by
    simp only [update_token_count, hL]
    exact update_token_count_loop_noop _ _ _ _ _ (not_lt.mpr hcount)
  have hloop : runLoop h none false [.ok ⟨some t, none⟩ false]
      (msgs0 ++ [userMsg u]) [Event.runStart (some u)] [] none =
      .done (msgs0 ++ [userMsg u, { role := .assistant, content := some t }])
        [Event.runStart (some u)] [] (some ⟨some t, none⟩) false false := by
    unfold runLoop
    simp [handle_non_streaming_response, htt, contTruthy]
  have hfilter : ∀ m ∈ msgs0 ++ [userMsg u, ({ role := .assistant, content := some t } : Msg)],
      decide (m.role ≠ Role.system) = true := by
    intro m hm
    simp only [List.mem_append, List.mem_cons, List.not_mem_nil, or_false] at hm
    rcases hm with h1 | h1 | h1
    · simpa using hsys m h1
    · subst h1
      simp [userMsg]
    · subst h1
      simp
  have hreset : reset_system_messages none
      (msgs0 ++ [userMsg u, { role := .assistant, content := some t }]) =
      msgs0 ++ [userMsg u, { role := .assistant, content := some t }] := by
    simp only [reset_system_messages, optTruthy]
    simpa using List.filter_eq_self.mpr hfilter
  simp only [process_messages, optTruthy]
  norm_num
  rw [if_neg (Option.some_ne_none u), if_neg hu]
  dsimp only
  rw [hnoop]
  dsimp only
  rw [hloop]
  dsimp only
  rw [hreset]
  simp

theorem process_messages_returns_final_text_witness :
    process_messages (fun s => s.length) "gpt-4o" 1 (fun _ _ => "") none
        (some "hi") none [] none [.ok ⟨some "hello", none⟩ false] false [] 0 =
      .ok (some "hello")
        [userMsg "hi", { role := .assistant, content := some "hello" }]
        [.runStart (some "hi"), .runUpdateCompleted, .runEnd (some "hello")]
        [] 2 := by
  have := process_messages_returns_final_text (fun s => s.length) "gpt-4o"
    128000 1 (fun _ _ => "") "hi" "hello" [] 0 (by decide) (by decide)
    (by decide) (by decide) (by intro m hm; simp at hm)
  simpa using this

/-- Tokenized length, summed over a list of evicted messages. -/
def evictedTokens (enc : String → Nat) (removed : List Msg) : Int :=
  (removed.map (fun m => (enc (m.content.getD "") : Int))).sum

/-- C3 (counterexample): a user turn loaded from a conversation thread is
appended to the history while `token_count` stays 0, instead of increasing by
the tokenized length of its content as the claim requires. -/
theorem thread_user_turn_not_counted :
    process_messages (fun s => s.length) "gpt-4o" 1 (fun _ _ => "")
        (some "t") none none [⟨.user, "hola"⟩] none
        [.ok ⟨some "sure", none⟩ false] false [] 0 =
      .ok none [userMsg "hola", { role := .assistant, content := some "sure" }]
        [.runStart (some "hola"), .runUpdateCompleted, .runEnd none]
        [⟨"sure", "t"⟩] 0 ∧
    (0 : Int) ≠ 0 + (String.length "hola" : Int) := by
  exact ⟨rfl, by decide⟩

/-- C3 (amended): `token_count` increases, by the tokenized length of the
content, only when a user turn is appended through an explicit user request;
user and assistant turns loaded from a conversation thread, and assistant and
tool turns appended by response handling, never change `token_count` (for
every run that returns, whatever responses and tool dispatches it performed,
the returned count is exactly what budget enforcement produced on the
pre-loop state, whose count is the initial count on the thread path and the
initial count plus the tokenized user request on the user-request path); and
`token_count` decreases only when the budget mechanism evicts turns, every
evicted turn being a user or assistant turn with content whose summed
tokenized length is subtracted (system and tool turns are never evicted). -/
theorem token_count_accounting_amended :
    (∀ (enc : String → Nat) (limit : Int) fuel msgs count msgs2 count2,
      update_token_count_loop enc limit fuel msgs count = .ok msgs2 count2 →
      ∃ removed, msgs = removed ++ msgs2 ∧
        (∀ m ∈ removed, (m.role = Role.user ∨ m.role = Role.assistant) ∧
          m.content.isSome) ∧
        count2 = count - evictedTokens enc removed) ∧
    (∀ (enc : String → Nat) model fuel h tn ur ai retrieved instr outcomes
        cancel0 msgs0 count0 ret msgs events sinks countF,
      optTruthy tn = true →
      process_messages enc model fuel h tn ur ai retrieved instr outcomes
          cancel0 msgs0 count0 = .ok ret msgs events sinks countF →
      ∃ msgs2, update_token_count enc model fuel
          (appendThreadMessages retrieved
            (if optTruthy ai then msgs0 ++ [sysMsg (ai.getD "")] else msgs0))
          count0 = .ok msgs2 countF) ∧
    (∀ (enc : String → Nat) model fuel h tn ur ai retrieved instr outcomes
        cancel0 msgs0 count0 ret msgs events sinks countF,
      optTruthy tn = false → optTruthy ur = true →
      process_messages enc model fuel h tn ur ai retrieved instr outcomes
          cancel0 msgs0 count0 = .ok ret msgs events sinks countF →
      ∃ msgs2, update_token_count enc model fuel
          ((if optTruthy ai then msgs0 ++ [sysMsg (ai.getD "")] else msgs0) ++
            [userMsg (ur.getD "")])
          (count0 + (enc (ur.getD "") : Int)) = .ok msgs2 countF) := by
  refine ⟨?_, ?_, ?_⟩
  · intro enc limit fuel
    induction fuel with
    | zero =>
        intro msgs count msgs2 count2 hok
        simp only [update_token_count_loop] at hok
        split at hok
        · exact absurd hok (by simp)
        · injection hok with h1 h2
          exact ⟨[], by simp [h1], by simp, by simp [evictedTokens, h2]⟩
    | succ n ih =>
        intro msgs count msgs2 count2 hok
        simp only [update_token_count_loop] at hok
        split at hok
        · split at hok
          · exact absurd hok (by simp)
          · next m rest =>
            split at hok
            · next hrole =>
              split at hok
              · next c hc =>
                obtain ⟨removed, hsplit, hprop, hcnt⟩ :=
                  ih rest (count - enc c) msgs2 count2 hok
                refine ⟨m :: removed, by simp [hsplit], ?_, ?_⟩
                · intro x hx
                  rcases List.mem_cons.mp hx with hx | hx
                  · subst hx
                    exact ⟨hrole, by simp [hc]⟩
                  · exact hprop x hx
                · simp only [evictedTokens, List.map_cons, List.sum_cons, hc,
                    Option.getD_some] at hcnt ⊢
                  omega
              · exact absurd hok (by simp)
            · next hrole =>
              exact ih (m :: rest) count msgs2 count2 hok
        · injection hok with h1 h2
          exact ⟨[], by simp [h1], by simp, by simp [evictedTokens, h2]⟩
  · intro enc model fuel h tn ur ai retrieved instr outcomes cancel0 msgs0
      count0 ret msgs events sinks countF htn hproc
    have hne : ¬ (tn = none ∧ ur = none) := by
      rintro ⟨h1, h2⟩
      rw [h1] at htn
      simp [optTruthy] at htn
    simp only [process_messages] at hproc
    rw [if_neg hne] at hproc
    simp only [htn, eq_self_iff_true, if_true] at hproc
    split at hproc
    · exact absurd hproc (by simp)
    · exact absurd hproc (by simp)
    · exact absurd hproc (by simp)
    · next msgs2 count2 heq =>
      split at hproc
      · exact absurd hproc (by simp)
      · exact absurd hproc (by simp)
      · injection hproc with e1 e2 e3 e4 e5
        exact ⟨msgs2, e5 ▸ heq⟩
  · intro enc model fuel h tn ur ai retrieved instr outcomes cancel0 msgs0
      count0 ret msgs events sinks countF htn hur hproc
    have hne : ¬ (tn = none ∧ ur = none) := by
      rintro ⟨h1, h2⟩
      rw [h2] at hur
      simp [optTruthy] at hur
    simp only [process_messages] at hproc
    rw [if_neg hne] at hproc
    simp only [htn, hur, Bool.false_eq_true, eq_self_iff_true, if_true,
      if_false] at hproc
    split at hproc
    · exact absurd hproc (by simp)
    · exact absurd hproc (by simp)
    · exact absurd hproc (by simp)
    · next msgs2 count2 heq =>
      split at hproc
      · exact absurd hproc (by simp)
      · exact absurd hproc (by simp)
      · split at hproc
        · exact absurd hproc (by simp)
        · injection hproc with e1 e2 e3 e4 e5
          exact ⟨msgs2, e5 ▸ heq⟩

theorem token_count_accounting_amended_witness :
    (∃ removed, [userMsg "ab", userMsg "xy"] = removed ++ [userMsg "xy"] ∧
      (∀ m ∈ removed, (m.role = Role.user ∨ m.role = Role.assistant) ∧
        m.content.isSome) ∧
      (1 : Int) = 3 - evictedTokens (fun s => s.length) removed) ∧
    (∃ msgs2, update_token_count (fun s => s.length) "gpt-4o" 1
      [userMsg "hi"] 2 = .ok msgs2 2) := by
  constructor
  · exact token_count_accounting_amended.1 (fun s => s.length) 2 2
      [userMsg "ab", userMsg "xy"] 3 [userMsg "xy"] 1 rfl
  · obtain ⟨m2, hm⟩ := token_count_accounting_amended.2.2 (fun s => s.length)
      "gpt-4o" 1 (fun n _ => if n = "get_weather" then "sunny" else "") none
      (some "hi") none [] none
      [.ok ⟨none, some [⟨"call1", ⟨"get_weather", "\x7b\x7d"⟩⟩]⟩ false,
       .ok ⟨some "done", none⟩ false] false [] 0
      (some "done")
      [userMsg "hi",
       { role := .assistant, content := none,
         tool_calls := some [⟨"call1", ⟨"get_weather", "\x7b\x7d"⟩⟩] },
       { role := .tool, content := some "sunny", tool_call_id := some "call1",
         name := some "get_weather" },
       { role := .assistant, content := some "done" }]
      [.runStart (some "hi"),
       .functionCallProcessed "get_weather" "\x7b\x7d" "sunny",
       .runUpdateCompleted, .runEnd (some "done")]
      [] 2 rfl (by decide) (by decide)
    exact ⟨m2, hm⟩

/-- A streamed tool-call fragment (`delta.tool_calls[k]`): a position within
the response's tool-call list, an id carried only by the fragment opening
that position, and name/arguments part strings. -/
structure ToolCallFragment where
  index : Nat
  id : Option String
  name_part : String
  arguments_part : String
deriving DecidableEq, Repr

/-- One `chunk.choices[0].delta`; a chunk with an empty `choices` list is
embedded as `none` at the use site. -/
structure Delta where
  content : Option String
  tool_calls : Option (List ToolCallFragment)
deriving DecidableEq, Repr

/-- Modelled from the spec: `_append_tool_calls` lives in
`BaseChatAssistantClient`, which is not among the provided source files.  Per
the spec, tool-call fragments are merged by index into a mapping from
fragment index to in-progress descriptor: the first fragment seen for an
index establishes a new descriptor capturing its id if present, and every
fragment for that index appends its name part and arguments part to the
descriptor, preserving arrival order.  `foldFragment` merges one fragment. -/
def foldFragment (f : ToolCallFragment) :
    List (Nat × ToolCall) → List (Nat × ToolCall)
  | [] => [(f.index, ⟨f.id.getD "", ⟨f.name_part, f.arguments_part⟩⟩)]
  | p :: ps =>
    if p.1 = f.index then
      (p.1, ⟨p.2.id, ⟨p.2.function.name ++ f.name_part,
        p.2.function.arguments ++ f.arguments_part⟩⟩) :: ps
    else p :: foldFragment f ps

/-- Modelled from the spec: `_append_tool_calls` merges the fragments of one
delta, in order, into the accumulated mapping. -/
def append_tool_calls (tool_calls : List (Nat × ToolCall))
    (delta_tool_calls : List ToolCallFragment) : List (Nat × ToolCall) :=
  delta_tool_calls.foldl (fun acc f => foldFragment f acc) tool_calls

/-- Insertion step for ordering finalized descriptors by index. -/
def insertByIdx (p : Nat × ToolCall) :
    List (Nat × ToolCall) → List (Nat × ToolCall)
  | [] => [p]
  | q :: qs => if p.1 ≤ q.1 then p :: q :: qs else q :: insertByIdx p qs

/-- Modelled from the spec: finalization of stream assembly yields the
tool-call descriptors ordered by index (the source keeps the mapping and the
finalized list as one mutable list inside the missing base-class helper). -/
def finalizeToolCalls (acc : List (Nat × ToolCall)) : List ToolCall :=
  (acc.foldr insertByIdx []).map (fun p => p.2)

/-- Python truthiness of `delta.tool_calls` (`None` and `[]` are falsy). -/
def fragsTruthy : Option (List ToolCallFragment) → Bool
  | some (_ :: _) => true
  | _ => false

/-- Accumulator of `_process_response_chunks`: the in-progress tool-call
mapping, the collected text fragments, the events fired so far, and the
`is_first_message` flag. -/
structure ChunkAcc where
  tool_calls : List (Nat × ToolCall)
  collected : List String
  events : List Event
  isFirst : Bool
deriving DecidableEq, Repr

/-- `_process_response_chunks`: fold over the arriving chunks; a truthy text
fragment is surfaced immediately as a streaming run-update event (first one
flagged) and collected; truthy tool-call fragments are merged into the
accumulated mapping. -/
def process_response_chunks (chunks : List (Option Delta)) : ChunkAcc :=
  chunks.foldl (fun acc ch =>
    match ch with
    | none => acc
    | some d =>
      let acc1 :=
        if optTruthy d.content then
          { acc with
            collected := acc.collected ++ [d.content.getD ""],
            events := acc.events ++
              [Event.streamUpdate (d.content.getD "") acc.isFirst],
            isFirst := false }
        else acc
      if fragsTruthy d.tool_calls then
        { acc1 with
          tool_calls := append_tool_calls acc1.tool_calls (d.tool_calls.getD []) }
      else acc1)
    ⟨[], [], [], true⟩

/-- `_process_tool_calls` (streaming path): when tool calls were assembled,
append one assistant turn recording them, then dispatch each in order,
firing the callback and appending the tool turn with the stringified
result. -/
def process_tool_calls (h : String → String → String)
    (tool_calls : List ToolCall) (msgs : List Msg) : List Msg × List Event :=
  let msgs1 := if tool_calls.isEmpty then msgs
    else msgs ++ [{ role := .assistant, tool_calls := some tool_calls }]
  tool_calls.foldl (fun (acc : List Msg × List Event) tc =>
    let resp := h tc.function.name tc.function.arguments
    (acc.1 ++ [{ role := .tool, content := some resp,
                 tool_call_id := some tc.id, name := some tc.function.name }],
     acc.2 ++ [Event.functionCallProcessed tc.function.name
                 tc.function.arguments resp])) (msgs1, [])

/-- `_update_conversation_with_messages`: join the truthy collected fragments
and, when both the joined text and the thread name are truthy, write the text
to the conversation thread; the in-memory history is not touched. -/
def update_conversation_with_messages (collected : List String)
    (tn : Option String) : List SinkAppend :=
  let full := String.join (collected.filter (fun s => s ≠ ""))
  if full ≠ "" ∧ optTruthy tn then
    [{ message := full, threadName := tn.getD "" }]
  else []

/-- `_handle_streaming_response`: assemble the chunks, process any assembled
tool calls, persist the collected text, and return whether tool calls were
processed (the loop continues exactly then). -/
def handle_streaming_response (h : String → String → String)
    (chunks : List (Option Delta)) (tn : Option String) (msgs : List Msg) :
    List Msg × List Event × List SinkAppend × Bool :=
  let acc := process_response_chunks chunks
  let r := process_tool_calls h (finalizeToolCalls acc.tool_calls) msgs
  let sinks := update_conversation_with_messages acc.collected tn
  (r.1, acc.events ++ r.2, sinks, !acc.tool_calls.isEmpty)

/-- C9: tool-call fragment folding is associative over delivery splits: for
every accumulated mapping and index, feeding two fragments of the same index
equals feeding the single unsplit fragment whose name and arguments are the
concatenations, the id being captured from the first fragment; evaluated on
the split `(get_, \x7b"city":)` / `(weather, "Paris"\x7d)` against the unsplit
`get_weather` fragment, both yielding the same descriptor. -/
theorem fragment_folding_assoc :
    (∀ acc i id1 id2 n1 a1 n2 a2,
      append_tool_calls acc [⟨i, id1, n1, a1⟩, ⟨i, id2, n2, a2⟩] =
        append_tool_calls acc [⟨i, id1, n1 ++ n2, a1 ++ a2⟩]) ∧
    append_tool_calls [] [⟨0, some "call1", "get_", "\x7b\"city\":"⟩,
        ⟨0, none, "weather", "\"Paris\"\x7d"⟩] =
      [(0, ⟨"call1", ⟨"get_weather", "\x7b\"city\":\"Paris\"\x7d"⟩⟩)] ∧
    append_tool_calls [] [⟨0, some "call1", "get_weather", "\x7b\"city\":\"Paris\"\x7d"⟩] =
      [(0, ⟨"call1", ⟨"get_weather", "\x7b\"city\":\"Paris\"\x7d"⟩⟩)] := by
  refine ⟨?_, by decide, by decide⟩
  intro acc i id1 id2 n1 a1 n2 a2
  simp only [append_tool_calls, List.foldl_cons, List.foldl_nil]
  induction acc with
  | nil => simp [foldFragment, String.append_assoc]
  | cons p ps ih =>
      by_cases hp : p.1 = i
      · simp [foldFragment, hp, String.append_assoc]
      · simp [foldFragment, hp, ih]

/-- The streaming run-update events produced for a list of text fragments,
the first one flagged as the first message. -/
def streamEventsFrom (isFirst : Bool) : List String → List Event
  | [] => []
  | s :: rest => Event.streamUpdate s isFirst :: streamEventsFrom false rest

/-- C4 (counterexample): a streamed delta sequence with the text fragments
"hel", "lo", no tool calls and no thread name finalizes with the non-empty
final text "hello" and the run completes (the handler returns `False`), yet
no assistant turn carrying that text is appended anywhere: the in-memory
message history is unchanged — still the single user turn — and nothing is
written to the conversation thread. -/
theorem streaming_final_text_not_appended :
    handle_streaming_response (fun _ _ => "")
        [some ⟨some "hel", none⟩, some ⟨some "lo", none⟩] none [userMsg "hi"] =
      ([userMsg "hi"],
       [.streamUpdate "hel" true, .streamUpdate "lo" false], [], false) ∧
    (userMsg "hi").role = Role.user := by
  exact ⟨by decide, rfl⟩

theorem process_response_chunks_text_only (frags : List String)
    (hne : ∀ s ∈ frags, s ≠ "") :
    ∀ acc : ChunkAcc,
      (frags.map (fun s => some (⟨some s, none⟩ : Delta))).foldl
        (fun acc ch =>
          match ch with
          | none => acc
          | some d =>
            let acc1 :=
              if optTruthy d.content then
                { acc with
                  collected := acc.collected ++ [d.content.getD ""],
                  events := acc.events ++
                    [Event.streamUpdate (d.content.getD "") acc.isFirst],
                  isFirst := false }
              else acc
            if fragsTruthy d.tool_calls then
              { acc1 with
                tool_calls := append_tool_calls acc1.tool_calls (d.tool_calls.getD []) }
            else acc1) acc =
      ⟨acc.tool_calls, acc.collected ++ frags,
       acc.events ++ streamEventsFrom acc.isFirst frags,
       acc.isFirst && frags.isEmpty⟩ := by
  induction frags with
  | nil =>
      intro acc
      simp [streamEventsFrom]
  | cons s rest ih =>
      intro acc
      have hs : optTruthy (some s) = true := by
        simp [optTruthy, hne s (List.mem_cons_self s rest)]
      have hrest : ∀ x ∈ rest, x ≠ "" := fun x hx => hne x (List.mem_cons_of_mem s hx)
      have hft : fragsTruthy (none : Option (List ToolCallFragment)) = false := rfl
      simp only [List.map_cons, List.foldl_cons]
      simp only [hs, hft, if_true, Bool.false_eq_true, if_false]
      rw [ih hrest]
      simp [streamEventsFrom]

/-- C4 (amended): in streaming mode, when the delta sequence finalizes with
no tool calls, each arriving non-empty text fragment is surfaced immediately
as a partial-update event in arrival order and the run completes (the handler
returns `False`), but no assistant turn is appended to the in-memory message
history; the in-arrival-order concatenation of the fragments is written to
the external conversation thread exactly when it is non-empty and a thread
name was given. -/
theorem streaming_text_surfaced_but_history_unchanged
    (h : String → String → String) (tn : Option String)
    (msgs : List Msg) (frags : List String)
    (hne : ∀ s ∈ frags, s ≠ "") :
    handle_streaming_response h
        (frags.map (fun s => some (⟨some s, none⟩ : Delta))) tn msgs =
      (msgs, streamEventsFrom true frags,
       (if String.join frags ≠ "" ∧ optTruthy tn then
          [{ message := String.join frags, threadName := tn.getD "" }]
        else []),
       false) := by
  have hacc := process_response_chunks_text_only frags hne
    (⟨[], [], [], true⟩ : ChunkAcc)
  have hfilter : List.filter (fun s => !decide (s = "")) frags = frags := by
    apply List.filter_eq_self.mpr
    intro a ha
    simpa using hne a ha
  simp only [handle_streaming_response, process_response_chunks, hacc]
  simp [process_tool_calls, finalizeToolCalls, update_conversation_with_messages]
  rw [hfilter]

theorem streaming_text_surfaced_witness :
    handle_streaming_response (fun _ _ => "")
        [some ⟨some "hel", none⟩, some ⟨some "lo", none⟩] (some "t") [userMsg "hi"] =
      ([userMsg "hi"],
       [.streamUpdate "hel" true, .streamUpdate "lo" false],
       [{ message := "hello", threadName := "t" }], false) := by
  have := streaming_text_surfaced_but_history_unchanged (fun _ _ => "")
    (some "t") [userMsg "hi"] ["hel", "lo"] (by decide)
  exact this.trans (by decide)

/-- Result of invoking a registered tool handler: a returned value or a
raised exception. -/
inductive HandlerResult where
  | ok (v : String)
  | raised (e : String)
deriving DecidableEq, Repr

/-- Modelled from the spec: `_handle_function_call` lives in
`BaseChatAssistantClient`, which is not among the provided source files.  Per
the spec (the dispatch operation), the tool name is resolved against a
caller-supplied registry and the argument string parsed as structured data;
a missing handler, unparsable arguments, or a raising handler all yield a
human-readable error description rather than propagating the failure, and a
success yields the stringified handler result. -/
def dispatch (registry : String → Option (String → HandlerResult))
    (parseArgs : String → Option String) (name args : String) : String :=
  match registry name with
  | none => "Error: " ++ ("function " ++ name ++ " not found")
  | some f =>
    match parseArgs args with
    | none => "Error: " ++ ("invalid arguments for function " ++ name)
    | some a =>
      match f a with
      | .ok v => v
      | .raised e => "Error: " ++ e

/-- C6: a dispatched tool call whose handler is missing, whose arguments fail
to parse, or whose handler raises still produces a tool-role turn whose
content is a human-readable error description; the failure is not propagated
(the response handler returns normally) and it returns `True`, so the run
continues to its next iteration. -/
theorem dispatch_isolates_tool_failure
    (registry : String → Option (String → HandlerResult))
    (parseArgs : String → Option String) (nm args cid : String)
    (tn : Option String) (msgs : List Msg)
    (hfail : registry nm = none ∨ parseArgs args = none ∨
      ∃ f e, registry nm = some f ∧
        ∃ a, parseArgs args = some a ∧ f a = .raised e) :
    (∃ s, dispatch registry parseArgs nm args = "Error: " ++ s) ∧
    handle_non_streaming_response (dispatch registry parseArgs) tn
        ⟨none, some [⟨cid, ⟨nm, args⟩⟩]⟩ msgs =
      { msgs := msgs ++
          [{ role := .assistant, content := none,
             tool_calls := some [⟨cid, ⟨nm, args⟩⟩] },
           { role := .tool,
             content := some (dispatch registry parseArgs nm args),
             tool_call_id := some cid, name := some nm }],
        events := [.functionCallProcessed nm args
          (dispatch registry parseArgs nm args)],
        sinks := [], cont := some true } := by
  constructor
  · rcases hfail with hreg | hparse | ⟨f, e, hreg, a, hparse, hraise⟩
    · exact ⟨"function " ++ nm ++ " not found", by simp [dispatch, hreg]⟩
    · rcases hr : registry nm with _ | f
      · exact ⟨"function " ++ nm ++ " not found", by simp [dispatch, hr]⟩
      · exact ⟨"invalid arguments for function " ++ nm, by simp [dispatch, hr, hparse]⟩
    · exact ⟨e, by simp [dispatch, hreg, hparse, hraise]⟩
  · simp [handle_non_streaming_response, optTruthy]

theorem dispatch_isolates_tool_failure_witness :
    (∃ s, dispatch (fun _ => none) (fun s => some s) "get_weather" "bad" =
      "Error: " ++ s) ∧
    handle_non_streaming_response (dispatch (fun _ => none) (fun s => some s))
        none ⟨none, some [⟨"c1", ⟨"get_weather", "bad"⟩⟩]⟩ [] =
      { msgs := [{ role := .assistant, content := none,
                   tool_calls := some [⟨"c1", ⟨"get_weather", "bad"⟩⟩] },
                 { role := .tool,
                   content := some "Error: function get_weather not found",
                   tool_call_id := some "c1", name := some "get_weather" }],
        events := [.functionCallProcessed "get_weather" "bad"
          "Error: function get_weather not found"],
        sinks := [], cont := some true } := by
  refine ⟨(dispatch_isolates_tool_failure (fun _ => none) (fun s => some s)
    "get_weather" "bad" "c1" none [] (Or.inl rfl)).1,
    ((dispatch_isolates_tool_failure (fun _ => none) (fun s => some s)
    "get_weather" "bad" "c1" none [] (Or.inl rfl)).2).trans (by decide)⟩
